import Mathlib

/-!
Verification of the face-recognition decision procedure of
recognition/views.py (RecognitionViewSet.recognize), together with the
Embedding Cache component described by the specification.

Numeric values (numpy float arrays, confidence scores, thresholds) are
idealised over the real numbers.
-/

namespace StudentAuth

/-- A face embedding: a real-valued vector (a numpy array idealised over ℝ). -/
abbrev Embedding := List ℝ

/-- np.dot on vectors: the sum of pairwise products. -/
def dot (xs ys : Embedding) : ℝ := (List.zipWith (fun a b => a * b) xs ys).sum

/-- The sum of squared entries, i.e. the square of np.linalg.norm. -/
def norm2 (xs : Embedding) : ℝ := (xs.map (fun a => a * a)).sum

/-- np.linalg.norm: the Euclidean norm of a vector. -/
noncomputable def vnorm (xs : Embedding) : ℝ := Real.sqrt (norm2 xs)

/-- Cosine similarity, as computed in recognize:
np.dot(main, student) / (np.linalg.norm(main) * np.linalg.norm(student)). -/
noncomputable def similarity (p c : Embedding) : ℝ := dot p c / (vnorm p * vnorm c)

/-- confidence = (similarity + 1) / 2, the rescaling to the 0..1 range. -/
noncomputable def confidence (p c : Embedding) : ℝ := (similarity p c + 1) / 2

/-- One detected face as returned by face_analyzer.get: a detector score and
an embedding. -/
structure Face where
  det_score : ℝ
  embedding : Embedding

/-- Python max(faces, key=lambda x: x.det_score) on the non-empty list
f :: fs: it keeps the current element unless a later one is strictly
greater, so the first face attaining the maximal score is selected. -/
noncomputable def bestFace (f : Face) (fs : List Face) : Face :=
  fs.foldl (fun b x => if b.det_score < x.det_score then x else b) f

/-- What loading and analysing one stored gallery image yields: either some
step (cv2.imread, cv2.resize, face_analyzer.get, the numpy arithmetic)
raises an exception, or a list of detected faces is produced. -/
inductive ImageResult where
  | failure
  | faces (fs : List Face)

/-- One gallery entry: a student (identified by a key) whose face_image is
non-empty, together with the result of analysing that stored image. -/
structure GalleryEntry where
  student : Nat
  result : ImageResult

/-- The result of handling the probe image inside the outer try block:
the probe analysis raises (caught by the generic handler, 500 response),
a MemoryError is raised (503 response), some other engine failure is
raised (500 response), or a list of detected faces is produced. -/
inductive ProbeResult where
  | loadFailure
  | memoryExhausted
  | engineFailure
  | faces (fs : List Face)

/-- The outcome of one recognition request, as in the HTTP responses of
recognize. -/
inductive Outcome where
  | noGallery
  | noFace
  | accepted (student : Nat) (confidence : ℝ)
  | noMatch (confidence : ℝ)
  | resourceExhausted
  | error

/-- One RecognitionLog row as created by recognize: the student foreign key
(SET_NULL, nullable), the confidence, the success flag, and the nullable
processing_time field. -/
structure LogRecord where
  student : Option Nat
  confidence : ℝ
  success : Bool
  processing_time : Option ℝ

/-- The per-entry work of the gallery loop: a raised exception or an image
with no detected face skips the entry (continue); otherwise the face with
the highest detector score is compared against the probe embedding. -/
noncomputable def entryConfidence (probeEmb : Embedding) (e : GalleryEntry) : Option ℝ :=
  match e.result with
  | .failure => none
  | .faces [] => none
  | .faces (f :: fs) => some (confidence probeEmb (bestFace f fs).embedding)

/-- One iteration of the loop over students: best_match and
highest_confidence are replaced only when confidence > highest_confidence. -/
noncomputable def scanStep (probeEmb : Embedding) (acc : Option Nat × ℝ)
    (e : GalleryEntry) : Option Nat × ℝ :=
  match entryConfidence probeEmb e with
  | none => acc
  | some conf => if acc.2 < conf then (some e.student, conf) else acc

/-- The full gallery scan, starting from best_match = None and
highest_confidence = 0. -/
noncomputable def scanGallery (probeEmb : Embedding) (gallery : List GalleryEntry) :
    Option Nat × ℝ :=
  gallery.foldl (scanStep probeEmb) (none, 0)

/-- The number of gallery entries skipped by the scan (exception raised or
no face found in the reference image). -/
noncomputable def skippedCount (probeEmb : Embedding) (gallery : List GalleryEntry) : ℕ :=
  (gallery.filter (fun e => (entryConfidence probeEmb e).isNone)).length

/-- Whether analysing this entry reached a successful face_analyzer.get
call: a raised exception is modelled as failing before the engine result is
obtained. -/
def engineCalls (e : GalleryEntry) : ℕ :=
  match e.result with
  | .failure => 0
  | .faces _ => 1

/-- Successful engine invocations made over the gallery during one scan. -/
def galleryEngineCalls (gallery : List GalleryEntry) : ℕ :=
  (gallery.map engineCalls).sum

/-- Lines 330-397: if best_match and highest_confidence >= threshold, the
accepted response and a success log are produced; otherwise the no-match
response and a failed log, whose reported confidence is highest_confidence
if best_match else 0. Both logs carry the measured processing time. -/
noncomputable def galleryDecision (best : Option Nat × ℝ) (threshold elapsed : ℝ) :
    Outcome × List LogRecord :=
  match best with
  | (some s, conf) =>
      if threshold ≤ conf then
        (.accepted s conf, [⟨some s, conf, true, some elapsed⟩])
      else
        (.noMatch conf, [⟨none, conf, false, some elapsed⟩])
  | (none, _) => (.noMatch 0, [⟨none, 0, false, some elapsed⟩])

/-- The recognize endpoint, in the order of the source: the empty-gallery
check comes first (404, no log written); a probe-side exception, memory
exhaustion or engine failure returns without writing a log; a probe with
zero detected faces writes one failed log with confidence 0 and no
processing time; otherwise the face with the highest detector score is
embedded and the gallery is scanned. The elapsed argument is the measured
processing time (time.time() - start_time). -/
noncomputable def recognize (gallery : List GalleryEntry) (probe : ProbeResult)
    (threshold elapsed : ℝ) : Outcome × List LogRecord :=
  match gallery with
  | [] => (.noGallery, [])
  | g0 :: gs =>
      match probe with
      | .loadFailure => (.error, [])
      | .memoryExhausted => (.resourceExhausted, [])
      | .engineFailure => (.error, [])
      | .faces [] => (.noFace, [⟨none, 0, false, none⟩])
      | .faces (f :: fs) =>
          galleryDecision (scanGallery (bestFace f fs).embedding (g0 :: gs))
            threshold elapsed

/-- Concrete probe face for the three-entry gallery scenario: embedding
with four unit entries. -/
noncomputable def probeC6 : Face := ⟨1, [1, 1, 1, 1]⟩

/-- Concrete three-entry gallery for the degraded-scan scenario: the first
reference is corrupt (its analysis raises), the second scores confidence
0.20 against the probe and the third scores 0.40. -/
noncomputable def galleryC6 : List GalleryEntry :=
  [⟨1, .failure⟩,
   ⟨2, .faces [⟨1, [-7, -7, 1, 1]⟩]⟩,
   ⟨3, .faces [⟨1, [7, -5, -5, -1]⟩]⟩]

/-- Modelled from the spec: the Embedding Cache of section 4.3 is an implied
improvement that the source tree does not contain; it maps content
fingerprints to memoized embeddings. -/
abbrev Cache := List (Nat × Embedding)

/-- Modelled from the spec: resolve(fingerprint, image_ref) returns the
memoized embedding on a hit with no engine call, and on a miss invokes the
Embedding Engine once and memoizes the result. The third component counts
the engine invocations made by this call (0 or 1). -/
def resolve (engine : Nat → Embedding) (c : Cache) (fp : Nat) :
    Embedding × Cache × Nat :=
  match c.lookup fp with
  | some e => (e, c, 0)
  | none => (engine fp, (fp, engine fp) :: c, 1)

/-- Modelled from the spec: one recognition request resolves every gallery
fingerprint through the cache; the result is the updated cache and the
total number of engine invocations made for the gallery. -/
def scanResolve (engine : Nat → Embedding) (c : Cache) (fps : List Nat) :
    Cache × Nat :=
  fps.foldl
    (fun acc fp =>
      ((resolve engine acc.1 fp).2.1, acc.2 + (resolve engine acc.1 fp).2.2))
    (c, 0)

theorem dot_cons (a b : ℝ) (p c : Embedding) :
    dot (a :: p) (b :: c) = a * b + dot p c := by
  simp [dot]

theorem norm2_cons (a : ℝ) (p : Embedding) :
    norm2 (a :: p) = a * a + norm2 p := by
  simp [norm2]

theorem norm2_nonneg (xs : Embedding) : 0 ≤ norm2 xs := by
  induction xs with
  | nil => simp [norm2]
  | cons a xs ih =>
      rw [norm2_cons]
      nlinarith [mul_self_nonneg a]

theorem dot_sq_le (p c : Embedding) : dot p c ^ 2 ≤ norm2 p * norm2 c := by
  induction p generalizing c with
  | nil => simp [dot, norm2]
  | cons a p ih =>
      cases c with
      | nil => simp [dot, norm2]
      | cons b c =>
          have h1 := ih c
          have h2 := norm2_nonneg p
          have h3 := norm2_nonneg c
          rw [dot_cons, norm2_cons, norm2_cons]
          rcases eq_or_lt_of_le h2 with hP | hP
          · have hS : dot p c = 0 := by nlinarith [sq_nonneg (dot p c)]
            rw [hS, ← hP]
            nlinarith [sq_nonneg a, sq_nonneg (a * b)]
          · nlinarith [sq_nonneg (a * dot p c - b * norm2 p),
              mul_nonneg (add_nonneg h2 (sq_nonneg a)) (sub_nonneg.mpr h1)]

theorem vnorm_nonneg (xs : Embedding) : 0 ≤ vnorm xs := Real.sqrt_nonneg _

theorem abs_dot_le (p c : Embedding) :
    -(vnorm p * vnorm c) ≤ dot p c ∧ dot p c ≤ vnorm p * vnorm c := by
  have hsq := dot_sq_le p c
  have hB0 : 0 ≤ vnorm p * vnorm c :=
    mul_nonneg (vnorm_nonneg p) (vnorm_nonneg c)
  have hB2 : (vnorm p * vnorm c) ^ 2 = norm2 p * norm2 c := by
    rw [vnorm, vnorm, ← Real.sqrt_mul (norm2_nonneg p)]
    exact Real.sq_sqrt (mul_nonneg (norm2_nonneg p) (norm2_nonneg c))
  constructor
  · nlinarith [sq_nonneg (dot p c + vnorm p * vnorm c)]
  · nlinarith [sq_nonneg (dot p c - vnorm p * vnorm c)]

/-- C2: for non-zero probe and candidate embeddings, the per-candidate
confidence equals (cosine similarity + 1) / 2 with cosine similarity the dot
product over the product of norms, and this confidence lies in the interval
from 0 to 1. -/
theorem confidence_formula_in_unit_interval (p c : Embedding)
    (hp : 0 < norm2 p) (hc : 0 < norm2 c) :
    confidence p c = (dot p c / (vnorm p * vnorm c) + 1) / 2 ∧
    0 ≤ confidence p c ∧ confidence p c ≤ 1 := by
  have hnp : 0 < vnorm p := Real.sqrt_pos.mpr hp
  have hnc : 0 < vnorm c := Real.sqrt_pos.mpr hc
  have hmul : 0 < vnorm p * vnorm c := mul_pos hnp hnc
  have habs := abs_dot_le p c
  have hlow : -1 ≤ similarity p c := by
    rw [similarity, le_div_iff₀ hmul]
    linarith [habs.1]
  have hhigh : similarity p c ≤ 1 := by
    rw [similarity, div_le_one hmul]
    exact habs.2
  refine ⟨rfl, ?_, ?_⟩
  · rw [confidence]; linarith
  · rw [confidence]; linarith

/-- C2 witness at the concrete vectors used for probing the formula. -/
theorem confidence_formula_in_unit_interval_witness :
    confidence [1, 0] [1, 1] =
      (dot [1, 0] [1, 1] / (vnorm [1, 0] * vnorm [1, 1]) + 1) / 2 ∧
    0 ≤ confidence [1, 0] [1, 1] ∧ confidence [1, 0] [1, 1] ≤ 1 :=
  confidence_formula_in_unit_interval [1, 0] [1, 1]
    (by norm_num [norm2]) (by norm_num [norm2])

theorem scanAux_keep (probeEmb : Embedding) (g : List GalleryEntry)
    (acc : Option Nat × ℝ)
    (h : ∀ e ∈ g, ∀ conf, entryConfidence probeEmb e = some conf → conf ≤ acc.2) :
    g.foldl (scanStep probeEmb) acc = acc := by
  induction g with
  | nil => rfl
  | cons e g ih =>
      have hstep : scanStep probeEmb acc e = acc := by
        rw [scanStep]
        cases heq : entryConfidence probeEmb e with
        | none => rfl
        | some conf =>
            have hle := h e (List.mem_cons_self e g) conf heq
            simp [not_lt.mpr hle]
      rw [List.foldl_cons, hstep]
      exact ih (fun e2 hmem conf hconf => h e2 (List.mem_cons_of_mem e hmem) conf hconf)

theorem scanAux_lt (probeEmb : Embedding) (g : List GalleryEntry)
    (acc : Option Nat × ℝ) (b : ℝ) (hacc : acc.2 < b)
    (h : ∀ e ∈ g, ∀ conf, entryConfidence probeEmb e = some conf → conf < b) :
    (g.foldl (scanStep probeEmb) acc).2 < b := by
  induction g generalizing acc with
  | nil => exact hacc
  | cons e g ih =>
      rw [List.foldl_cons]
      have htail : ∀ e2 ∈ g, ∀ conf, entryConfidence probeEmb e2 = some conf → conf < b :=
        fun e2 hmem conf hconf => h e2 (List.mem_cons_of_mem e hmem) conf hconf
      cases heq : entryConfidence probeEmb e with
      | none =>
          simp only [scanStep, heq]
          exact ih acc hacc htail
      | some conf =>
          have hlt := h e (List.mem_cons_self e g) conf heq
          simp only [scanStep, heq]
          by_cases hrep : acc.2 < conf
          · rw [if_pos hrep]
            exact ih (some e.student, conf) hlt htail
          · rw [if_neg hrep]
            exact ih acc hacc htail

theorem scanAux_some_stable (probeEmb : Embedding) (g : List GalleryEntry)
    (acc : Option Nat × ℝ) (h : acc.1.isSome) :
    (g.foldl (scanStep probeEmb) acc).1.isSome := by
  induction g generalizing acc with
  | nil => exact h
  | cons e g ih =>
      rw [List.foldl_cons]
      cases heq : entryConfidence probeEmb e with
      | none =>
          simp only [scanStep, heq]
          exact ih acc h
      | some conf =>
          simp only [scanStep, heq]
          by_cases hrep : acc.2 < conf
          · rw [if_pos hrep]
            exact ih (some e.student, conf) rfl
          · rw [if_neg hrep]
            exact ih acc h

theorem scanAux_none (probeEmb : Embedding) (g : List GalleryEntry)
    (acc : Option Nat × ℝ) (h : (g.foldl (scanStep probeEmb) acc).1 = none) :
    g.foldl (scanStep probeEmb) acc = acc := by
  induction g generalizing acc with
  | nil => rfl
  | cons e g ih =>
      rw [List.foldl_cons] at h ⊢
      cases heq : entryConfidence probeEmb e with
      | none =>
          simp only [scanStep, heq] at h ⊢
          exact ih acc h
      | some conf =>
          by_cases hrep : acc.2 < conf
          · exfalso
            have hsome : ((g.foldl (scanStep probeEmb) (scanStep probeEmb acc e)).1).isSome := by
              apply scanAux_some_stable
              simp only [scanStep, heq, if_pos hrep]
              rfl
            rw [h] at hsome
            exact Bool.noConfusion hsome
          · simp only [scanStep, heq, if_neg hrep] at h ⊢
            exact ih acc h

theorem scan_none_zero (probeEmb : Embedding) (g : List GalleryEntry)
    (h : (scanGallery probeEmb g).1 = none) : (scanGallery probeEmb g).2 = 0 := by
  rw [scanGallery] at h ⊢
  rw [scanAux_none probeEmb g (none, 0) h]

/-- C3: the gallery scan is a pure function of the probe embedding and the
ordered gallery (hence deterministic across runs), and the tracked best is
replaced only on strict improvement, so the entry selected is the first one
attaining the maximal confidence: any earlier entry scores strictly less,
and any later entry, including one tying at the maximum, never replaces
it. -/
theorem scan_first_max_selected (probeEmb : Embedding)
    (l1 l2 : List GalleryEntry) (e : GalleryEntry) (c : ℝ)
    (hc : entryConfidence probeEmb e = some c) (hpos : 0 < c)
    (h1 : ∀ e2 ∈ l1, ∀ conf, entryConfidence probeEmb e2 = some conf → conf < c)
    (h2 : ∀ e2 ∈ l2, ∀ conf, entryConfidence probeEmb e2 = some conf → conf ≤ c) :
    scanGallery probeEmb (l1 ++ e :: l2) = (some e.student, c) := by
  rw [scanGallery, List.foldl_append, List.foldl_cons]
  have hlt : (l1.foldl (scanStep probeEmb) (none, 0)).2 < c :=
    scanAux_lt probeEmb l1 (none, 0) c hpos h1
  have hstep : scanStep probeEmb (l1.foldl (scanStep probeEmb) (none, 0)) e
      = (some e.student, c) := by
    simp only [scanStep, hc, if_pos hlt]
  rw [hstep]
  exact scanAux_keep probeEmb l2 (some e.student, c) h2

theorem recognize_cons_faces (g0 : GalleryEntry) (gs : List GalleryEntry)
    (f : Face) (fs : List Face) (t elapsed : ℝ) :
    recognize (g0 :: gs) (.faces (f :: fs)) t elapsed =
      galleryDecision (scanGallery (bestFace f fs).embedding (g0 :: gs)) t elapsed := rfl

theorem galleryDecision_some (s : Nat) (conf t elapsed : ℝ) :
    galleryDecision (some s, conf) t elapsed =
      if t ≤ conf then
        (.accepted s conf, [⟨some s, conf, true, some elapsed⟩])
      else
        (.noMatch conf, [⟨none, conf, false, some elapsed⟩]) := rfl

theorem galleryDecision_none (conf t elapsed : ℝ) :
    galleryDecision (none, conf) t elapsed =
      (.noMatch 0, [⟨none, 0, false, some elapsed⟩]) := rfl

theorem conf_34_4m3 : confidence [3, 4] [4, -3] = 1 / 2 := by
  rw [confidence, similarity]
  rw [show dot [3, 4] [4, -3] = 0 from by norm_num [dot]]
  norm_num

theorem scan_probe34 :
    scanGallery (bestFace ⟨1, [3, 4]⟩ []).embedding
      [⟨7, .faces [⟨1, [4, -3]⟩]⟩] = (some 7, 1 / 2) := by
  rw [scanGallery, List.foldl_cons, List.foldl_nil]
  simp only [scanStep, entryConfidence, bestFace, List.foldl_nil, conf_34_4m3]
  norm_num

/-- C1: once the probe yields an embedding and the gallery scan completes,
a best confidence at or above the (positive) acceptance threshold yields
ACCEPTED with the tracked candidate and that confidence, and a best
confidence below the threshold yields NO_MATCH carrying the best confidence
found, so the numeric value is surfaced on rejection as well; concretely,
best confidence one half is ACCEPTED at threshold 0.35 and NO_MATCH still
carrying one half at threshold 0.60. -/
theorem recognize_threshold_decision :
    (∀ (g0 : GalleryEntry) (gs : List GalleryEntry) (f : Face) (fs : List Face)
        (t elapsed : ℝ), 0 < t →
      (t ≤ (scanGallery (bestFace f fs).embedding (g0 :: gs)).2 →
        ∃ s, (scanGallery (bestFace f fs).embedding (g0 :: gs)).1 = some s ∧
          (recognize (g0 :: gs) (.faces (f :: fs)) t elapsed).1 =
            .accepted s (scanGallery (bestFace f fs).embedding (g0 :: gs)).2) ∧
      ((scanGallery (bestFace f fs).embedding (g0 :: gs)).2 < t →
        (recognize (g0 :: gs) (.faces (f :: fs)) t elapsed).1 =
          .noMatch (scanGallery (bestFace f fs).embedding (g0 :: gs)).2)) ∧
    (recognize [⟨7, .faces [⟨1, [4, -3]⟩]⟩] (.faces [⟨1, [3, 4]⟩]) (35 / 100) 1).1 =
      .accepted 7 (1 / 2) ∧
    (recognize [⟨7, .faces [⟨1, [4, -3]⟩]⟩] (.faces [⟨1, [3, 4]⟩]) (60 / 100) 1).1 =
      .noMatch (1 / 2) := by
  refine ⟨?_, ?_, ?_⟩
  · intro g0 gs f fs t elapsed ht
    rcases hr : scanGallery (bestFace f fs).embedding (g0 :: gs) with ⟨b, c⟩
    constructor
    · intro hge
      simp only at hge
      cases b with
      | none =>
          exfalso
          have h2 := scan_none_zero (bestFace f fs).embedding (g0 :: gs) (by rw [hr])
          rw [hr] at h2
          simp only at h2
          linarith
      | some s =>
          refine ⟨s, rfl, ?_⟩
          simp [recognize_cons_faces, hr, galleryDecision_some, if_pos hge]
    · intro hlt
      simp only at hlt
      cases b with
      | none =>
          have h2 := scan_none_zero (bestFace f fs).embedding (g0 :: gs) (by rw [hr])
          rw [hr] at h2
          simp only at h2
          simp [recognize_cons_faces, hr, galleryDecision_none, h2]
      | some s =>
          simp [recognize_cons_faces, hr, galleryDecision_some, if_neg (not_le.mpr hlt)]
  · rw [recognize_cons_faces, scan_probe34, galleryDecision_some, if_pos (by norm_num)]
  · rw [recognize_cons_faces, scan_probe34, galleryDecision_some, if_neg (by norm_num)]

/-- C1 witness: the decision rule applied at the concrete scenario gallery
with threshold 0.35. -/
theorem recognize_threshold_decision_witness :
    (35 / 100 : ℝ) ≤ (scanGallery (bestFace ⟨1, [3, 4]⟩ []).embedding
        [⟨7, .faces [⟨1, [4, -3]⟩]⟩]).2 →
      ∃ s, (scanGallery (bestFace ⟨1, [3, 4]⟩ []).embedding
          [⟨7, .faces [⟨1, [4, -3]⟩]⟩]).1 = some s ∧
        (recognize [⟨7, .faces [⟨1, [4, -3]⟩]⟩] (.faces [⟨1, [3, 4]⟩])
            (35 / 100) 1).1 =
          .accepted s (scanGallery (bestFace ⟨1, [3, 4]⟩ []).embedding
            [⟨7, .faces [⟨1, [4, -3]⟩]⟩]).2 :=
  (recognize_threshold_decision.1 ⟨7, .faces [⟨1, [4, -3]⟩]⟩ [] ⟨1, [3, 4]⟩ []
    (35 / 100) 1 (by norm_num)).1

/-- C4, evidence of the defect: the no-gallery branch, the MemoryError
handler and the generic exception handlers all return a response without
creating any RecognitionLog row, so these recognition attempts complete
with an empty audit trail, contradicting the documented rule that every
attempt is logged. -/
theorem recognize_missing_audit_paths :
    recognize [] (.faces [⟨1, [1, 0]⟩]) (35 / 100) 1 = (.noGallery, []) ∧
    recognize [⟨1, .faces [⟨1, [1, 0]⟩]⟩] .memoryExhausted (35 / 100) 1 =
      (.resourceExhausted, []) ∧
    recognize [⟨1, .faces [⟨1, [1, 0]⟩]⟩] .engineFailure (35 / 100) 1 =
      (.error, []) ∧
    recognize [⟨1, .faces [⟨1, [1, 0]⟩]⟩] .loadFailure (35 / 100) 1 =
      (.error, []) :=
  ⟨rfl, rfl, rfl, rfl⟩

/-- C5, counterexample: the empty-gallery check runs before face detection,
so a probe with zero detectable faces against an empty gallery yields
NO_GALLERY, not NO_FACE, and no audit record at all is written. -/
theorem recognize_empty_gallery_overrides_no_face :
    (recognize [] (.faces []) (35 / 100) 1).1 = .noGallery ∧
    Outcome.noGallery ≠ Outcome.noFace ∧
    (recognize [] (.faces []) (35 / 100) 1).2 = [] :=
  ⟨rfl, fun h => Outcome.noConfusion h, rfl⟩

/-- C5, amended: for every probe with zero detectable faces scanned against
a non-empty gallery, the outcome is NO_FACE and exactly one audit record
with student null, confidence 0 and success false is written. -/
theorem recognize_no_face_logs (g0 : GalleryEntry) (gs : List GalleryEntry)
    (t elapsed : ℝ) :
    recognize (g0 :: gs) (.faces []) t elapsed =
      (.noFace, [⟨none, 0, false, none⟩]) := rfl

/-- C8, counterexample: the failed log written on the no-face path carries
no processing time (the row is created before the measurement completes),
even though the measured elapsed time (here 9) exists for the request. -/
theorem no_face_log_without_time :
    (recognize [⟨1, .faces [⟨1, [1, 0]⟩]⟩] (.faces []) (35 / 100) 9).1 =
      .noFace ∧
    (recognize [⟨1, .faces [⟨1, [1, 0]⟩]⟩] (.faces []) (35 / 100) 9).2.map
      (fun rec => rec.processing_time) = [none] :=
  ⟨rfl, rfl⟩

/-- C8, amended: for every request whose probe yields an embedding, the
processing-time measurement (started before probe embedding, stopped after
the gallery scan) is recorded on the single audit record written, both when
the outcome is ACCEPTED and when it is NO_MATCH; the NO_FACE record alone
is written without it. -/
theorem match_logs_carry_time (g0 : GalleryEntry) (gs : List GalleryEntry)
    (f : Face) (fs : List Face) (t elapsed : ℝ) :
    (recognize (g0 :: gs) (.faces (f :: fs)) t elapsed).2.map
      (fun rec => rec.processing_time) = [some elapsed] := by
  rw [recognize_cons_faces]
  rcases hr : scanGallery (bestFace f fs).embedding (g0 :: gs) with ⟨b, c⟩
  cases b with
  | none => simp [galleryDecision_none]
  | some s =>
      rw [galleryDecision_some]
      by_cases hle : t ≤ c
      · simp [if_pos hle]
      · simp [if_neg hle]

/-- C9: the best-match tracker starts at None with confidence 0 and is
updated only on strict improvement, and acceptance requires a tracked
candidate, so when every gallery candidate scores confidence at most 0 the
outcome is NO_MATCH even at acceptance threshold 0. -/
theorem zero_confidence_never_accepted (g0 : GalleryEntry)
    (gs : List GalleryEntry) (f : Face) (fs : List Face) (elapsed : ℝ)
    (h : ∀ e ∈ g0 :: gs, ∀ conf,
      entryConfidence (bestFace f fs).embedding e = some conf → conf ≤ 0) :
    (recognize (g0 :: gs) (.faces (f :: fs)) 0 elapsed).1 = .noMatch 0 := by
  have hscan : scanGallery (bestFace f fs).embedding (g0 :: gs) = (none, 0) := by
    rw [scanGallery]
    exact scanAux_keep _ _ _ h
  rw [recognize_cons_faces, hscan, galleryDecision_none]

/-- C9 witness: a single gallery candidate whose confidence is exactly 0
(opposite-direction embedding) is rejected at threshold 0. -/
theorem zero_confidence_never_accepted_witness :
    (recognize [⟨5, .faces [⟨1, [-1, 0]⟩]⟩] (.faces [⟨1, [1, 0]⟩]) 0 1).1 =
      .noMatch 0 := by
  have hv1 : vnorm [1, 0] = 1 := by
    rw [vnorm, show norm2 [1, 0] = 1 from by norm_num [norm2], Real.sqrt_one]
  have hv2 : vnorm [-1, 0] = 1 := by
    rw [vnorm, show norm2 [-1, 0] = 1 from by norm_num [norm2], Real.sqrt_one]
  have hc : confidence [1, 0] [-1, 0] = 0 := by
    rw [confidence, similarity, hv1, hv2,
      show dot [1, 0] [-1, 0] = -1 from by norm_num [dot]]
    norm_num
  apply zero_confidence_never_accepted
  intro e he conf hconf
  simp only [List.mem_singleton] at he
  subst he
  simp only [entryConfidence, bestFace, List.foldl_nil, hc] at hconf
  simp only [Option.some.injEq] at hconf
  rw [← hconf]

/-- C10: every audit record written with success false has a null student
field: the identity of the best-scoring candidate is never persisted on a
failed attempt, even when such a candidate exists. -/
theorem failed_log_student_anonymous (gallery : List GalleryEntry)
    (probe : ProbeResult) (t elapsed : ℝ) :
    ∀ rec ∈ (recognize gallery probe t elapsed).2,
      rec.success = false → rec.student = none := by
  cases gallery with
  | nil => intro rec hrec; simp [recognize] at hrec
  | cons g0 gs =>
      cases probe with
      | loadFailure => intro rec hrec; simp [recognize] at hrec
      | memoryExhausted => intro rec hrec; simp [recognize] at hrec
      | engineFailure => intro rec hrec; simp [recognize] at hrec
      | faces fsall =>
          cases fsall with
          | nil =>
              intro rec hrec hsucc
              simp only [recognize, List.mem_singleton] at hrec
              rw [hrec]
          | cons f fs =>
              rw [recognize_cons_faces]
              rcases hr : scanGallery (bestFace f fs).embedding (g0 :: gs) with ⟨b, c⟩
              cases b with
              | none =>
                  intro rec hrec hsucc
                  simp only [galleryDecision_none, List.mem_singleton] at hrec
                  rw [hrec]
              | some s =>
                  rw [galleryDecision_some]
                  by_cases hle : t ≤ c
                  · intro rec hrec hsucc
                    rw [if_pos hle] at hrec
                    simp only [List.mem_singleton] at hrec
                    rw [hrec] at hsucc
                    exact absurd hsucc (by simp)
                  · intro rec hrec hsucc
                    rw [if_neg hle] at hrec
                    simp only [List.mem_singleton] at hrec
                    rw [hrec]

/-- C10 witness: the record of a concrete rejected attempt (best candidate
scored one half, threshold 0.60) has a null student field. -/
theorem failed_log_student_anonymous_witness :
    (⟨none, 1 / 2, false, some 1⟩ : LogRecord).student = none := by
  have hmem : (⟨none, 1 / 2, false, some 1⟩ : LogRecord) ∈
      (recognize [⟨7, .faces [⟨1, [4, -3]⟩]⟩] (.faces [⟨1, [3, 4]⟩])
        (60 / 100) 1).2 := by
    rw [recognize_cons_faces, scan_probe34, galleryDecision_some,
      if_neg (by norm_num)]
    simp
  exact failed_log_student_anonymous _ _ _ _ _ hmem rfl

/-- C3 witness: two gallery candidates tie at confidence 1 (same-direction
embeddings); the scan selects the first of them. -/
theorem scan_first_max_selected_witness :
    scanGallery [1, 0]
      ([] ++ (⟨1, .faces [⟨1, [1, 0]⟩]⟩ : GalleryEntry) ::
        [⟨2, .faces [⟨1, [2, 0]⟩]⟩]) = (some 1, 1) := by
  have hv1 : vnorm [1, 0] = 1 := by
    rw [vnorm, show norm2 [1, 0] = 1 from by norm_num [norm2], Real.sqrt_one]
  have hv2 : vnorm [2, 0] = 2 := by
    rw [vnorm, show norm2 [2, 0] = 4 from by norm_num [norm2],
      show (4 : ℝ) = 2 ^ 2 from by norm_num]
    exact Real.sqrt_sq (by norm_num)
  have hc1 : confidence [1, 0] [1, 0] = 1 := by
    rw [confidence, similarity, hv1,
      show dot [1, 0] [1, 0] = 1 from by norm_num [dot]]
    norm_num
  have hc2 : confidence [1, 0] [2, 0] = 1 := by
    rw [confidence, similarity, hv1, hv2,
      show dot [1, 0] [2, 0] = 2 from by norm_num [dot]]
    norm_num
  apply scan_first_max_selected
  · simp only [entryConfidence, bestFace, List.foldl_nil, hc1]
  · norm_num
  · simp
  · intro e2 he2 conf hconf
    simp only [List.mem_singleton] at he2
    subst he2
    simp only [entryConfidence, bestFace, List.foldl_nil, hc2] at hconf
    simp only [Option.some.injEq] at hconf
    rw [← hconf]

theorem sqrt_four : Real.sqrt 4 = 2 := by
  rw [show (4 : ℝ) = 2 ^ 2 from by norm_num]
  exact Real.sqrt_sq (by norm_num)

theorem sqrt_hundred : Real.sqrt 100 = 10 := by
  rw [show (100 : ℝ) = 10 ^ 2 from by norm_num]
  exact Real.sqrt_sq (by norm_num)

theorem confC6_entry2 : confidence [1, 1, 1, 1] [-7, -7, 1, 1] = 1 / 5 := by
  rw [confidence, similarity,
    show vnorm [1, 1, 1, 1] = 2 from by
      rw [vnorm, show norm2 [1, 1, 1, 1] = 4 from by norm_num [norm2]]
      exact sqrt_four,
    show vnorm [-7, -7, 1, 1] = 10 from by
      rw [vnorm, show norm2 [-7, -7, 1, 1] = 100 from by norm_num [norm2]]
      exact sqrt_hundred,
    show dot [1, 1, 1, 1] [-7, -7, 1, 1] = -12 from by norm_num [dot]]
  norm_num

theorem confC6_entry3 : confidence [1, 1, 1, 1] [7, -5, -5, -1] = 2 / 5 := by
  rw [confidence, similarity,
    show vnorm [1, 1, 1, 1] = 2 from by
      rw [vnorm, show norm2 [1, 1, 1, 1] = 4 from by norm_num [norm2]]
      exact sqrt_four,
    show vnorm [7, -5, -5, -1] = 10 from by
      rw [vnorm, show norm2 [7, -5, -5, -1] = 100 from by norm_num [norm2]]
      exact sqrt_hundred,
    show dot [1, 1, 1, 1] [7, -5, -5, -1] = -4 from by norm_num [dot]]
  norm_num

/-- C6: a failing gallery entry is skipped without affecting the rest of the
scan (the best candidate and confidence are those of the gallery without
it, with one more skip counted); a gallery whose entries all fail yields
NO_MATCH; and in the concrete scenario of three entries, one corrupt and
two scoring 0.20 and 0.40, the best is the 0.40 entry, one entry is
skipped, the engine succeeds only twice over the gallery, and the request
is accepted at threshold 0.35. -/
theorem scan_error_isolation :
    (∀ (probeEmb : Embedding) (l1 l2 : List GalleryEntry) (bad : GalleryEntry),
      entryConfidence probeEmb bad = none →
      scanGallery probeEmb (l1 ++ bad :: l2) = scanGallery probeEmb (l1 ++ l2) ∧
      skippedCount probeEmb (l1 ++ bad :: l2) =
        skippedCount probeEmb (l1 ++ l2) + 1) ∧
    (∀ (g0 : GalleryEntry) (gs : List GalleryEntry) (f : Face) (fs : List Face)
        (t elapsed : ℝ),
      (∀ e ∈ g0 :: gs, entryConfidence (bestFace f fs).embedding e = none) →
      (recognize (g0 :: gs) (.faces (f :: fs)) t elapsed).1 = .noMatch 0) ∧
    (scanGallery (bestFace probeC6 []).embedding galleryC6 = (some 3, 2 / 5) ∧
      skippedCount (bestFace probeC6 []).embedding galleryC6 = 1 ∧
      galleryEngineCalls galleryC6 = 2 ∧
      (recognize galleryC6 (.faces [probeC6]) (35 / 100) 1).1 =
        .accepted 3 (2 / 5)) := by
  refine ⟨?_, ?_, ?_, ?_, ?_, ?_⟩
  · intro probeEmb l1 l2 bad hbad
    constructor
    · rw [scanGallery, scanGallery, List.foldl_append, List.foldl_append,
        List.foldl_cons]
      have hstep : scanStep probeEmb (l1.foldl (scanStep probeEmb) (none, 0)) bad
          = l1.foldl (scanStep probeEmb) (none, 0) := by
        simp only [scanStep, hbad]
      rw [hstep]
    · simp only [skippedCount, List.filter_append, List.filter_cons,
        hbad, Option.isNone_none, List.length_append, List.length_cons]
      simp
      omega
  · intro g0 gs f fs t elapsed h
    have hscan : scanGallery (bestFace f fs).embedding (g0 :: gs) = (none, 0) := by
      rw [scanGallery]
      apply scanAux_keep
      intro e he conf hconf
      rw [h e he] at hconf
      exact Option.noConfusion hconf
    rw [recognize_cons_faces, hscan, galleryDecision_none]
  · simp only [galleryC6, probeC6, scanGallery, List.foldl_cons, List.foldl_nil]
    simp only [scanStep, entryConfidence, bestFace, List.foldl_nil,
      confC6_entry2, confC6_entry3]
    norm_num
  · simp only [skippedCount, galleryC6, probeC6, entryConfidence, bestFace,
      List.foldl_nil, List.filter_cons, List.filter_nil]
    simp
  · simp [galleryEngineCalls, galleryC6, engineCalls]
  · simp only [galleryC6, probeC6]
    rw [recognize_cons_faces]
    have hsc : scanGallery
        (bestFace (⟨1, [1, 1, 1, 1]⟩ : Face) []).embedding
        ((⟨1, .failure⟩ : GalleryEntry) ::
          [⟨2, .faces [⟨1, [-7, -7, 1, 1]⟩]⟩,
           ⟨3, .faces [⟨1, [7, -5, -5, -1]⟩]⟩]) = (some 3, 2 / 5) := by
      simp only [scanGallery, List.foldl_cons, List.foldl_nil]
      simp only [scanStep, entryConfidence, bestFace, List.foldl_nil,
        confC6_entry2, confC6_entry3]
      norm_num
    rw [hsc, galleryDecision_some, if_pos (by norm_num)]

/-- C6 witness: a corrupt entry inserted into an otherwise empty gallery is
skipped without changing the scan result. -/
theorem scan_error_isolation_witness :
    scanGallery [1, 0] ([] ++ (⟨9, .failure⟩ : GalleryEntry) :: []) =
      scanGallery [1, 0] ([] ++ []) ∧
    skippedCount [1, 0] ([] ++ (⟨9, .failure⟩ : GalleryEntry) :: []) =
      skippedCount [1, 0] ([] ++ []) + 1 :=
  scan_error_isolation.1 [1, 0] [] [] ⟨9, .failure⟩ rfl

theorem resolve_lookup_self (engine : Nat → Embedding) (c : Cache) (fp : Nat) :
    ((resolve engine c fp).2.1).lookup fp = some (resolve engine c fp).1 := by
  cases h : c.lookup fp with
  | some v => simp [resolve, h]
  | none => simp [resolve, h, List.lookup]

theorem resolve_preserves (engine : Nat → Embedding) (c : Cache)
    (fp fp2 : Nat) (v : Embedding) (h : c.lookup fp2 = some v) :
    ((resolve engine c fp).2.1).lookup fp2 = some v := by
  cases hm : c.lookup fp with
  | some w => simpa [resolve, hm] using h
  | none =>
      by_cases heq : fp2 = fp
      · subst heq
        rw [h] at hm
        exact Option.noConfusion hm
      · have hbeq : (fp2 == fp) = false := by simp [heq]
        simpa [resolve, hm, List.lookup, hbeq] using h

theorem resolve_hit (engine : Nat → Embedding) (c : Cache) (fp : Nat)
    (v : Embedding) (h : c.lookup fp = some v) :
    resolve engine c fp = (v, c, 0) := by
  simp [resolve, h]

theorem scanResolveAux_preserves (engine : Nat → Embedding) (fps : List Nat)
    (acc : Cache × Nat) (fp2 : Nat) (v : Embedding)
    (h : acc.1.lookup fp2 = some v) :
    ((fps.foldl
      (fun acc fp =>
        ((resolve engine acc.1 fp).2.1, acc.2 + (resolve engine acc.1 fp).2.2))
      acc).1).lookup fp2 = some v := by
  induction fps generalizing acc with
  | nil => exact h
  | cons fp fps ih =>
      rw [List.foldl_cons]
      exact ih _ (resolve_preserves engine acc.1 fp fp2 v h)

theorem scanResolveAux_covers (engine : Nat → Embedding) (fps : List Nat)
    (acc : Cache × Nat) (fp : Nat) (hmem : fp ∈ fps) :
    ∃ v, ((fps.foldl
      (fun acc fp =>
        ((resolve engine acc.1 fp).2.1, acc.2 + (resolve engine acc.1 fp).2.2))
      acc).1).lookup fp = some v := by
  induction fps generalizing acc with
  | nil => exact absurd hmem (List.not_mem_nil fp)
  | cons fp0 fps ih =>
      rw [List.foldl_cons]
      rcases List.mem_cons.mp hmem with heq | htail
      · subst heq
        exact ⟨(resolve engine acc.1 fp).1,
          scanResolveAux_preserves engine fps _ fp _
            (resolve_lookup_self engine acc.1 fp)⟩
      · exact ih _ htail

theorem scanResolveAux_no_calls (engine : Nat → Embedding) (fps : List Nat)
    (c : Cache) (n : Nat)
    (h : ∀ fp ∈ fps, ∃ v, c.lookup fp = some v) :
    fps.foldl
      (fun acc fp =>
        ((resolve engine acc.1 fp).2.1, acc.2 + (resolve engine acc.1 fp).2.2))
      (c, n) = (c, n) := by
  induction fps with
  | nil => rfl
  | cons fp fps ih =>
      rw [List.foldl_cons]
      obtain ⟨v, hv⟩ := h fp (List.mem_cons_self fp fps)
      rw [show resolve engine ((c, n) : Cache × Nat).1 fp = (v, c, 0) from
        resolve_hit engine c fp v hv]
      exact ih (fun fp2 hmem => h fp2 (List.mem_cons_of_mem fp hmem))

/-- C7: the Embedding Cache memoizes by fingerprint: resolving the same
fingerprint again returns the identical embedding with no further engine
invocation (at most one engine call per fingerprint until invalidation),
and scanning an unchanged gallery a second time through the cache performs
zero engine invocations. -/
theorem cache_resolve_memoizes :
    (∀ (engine : Nat → Embedding) (c : Cache) (fp : Nat),
      (resolve engine (resolve engine c fp).2.1 fp).1 = (resolve engine c fp).1 ∧
      (resolve engine (resolve engine c fp).2.1 fp).2.2 = 0 ∧
      (c.lookup fp = none → (resolve engine c fp).2.2 = 1)) ∧
    (∀ (engine : Nat → Embedding) (fps : List Nat),
      (scanResolve engine (scanResolve engine [] fps).1 fps).2 = 0) := by
  constructor
  · intro engine c fp
    have hself := resolve_lookup_self engine c fp
    have hsecond := resolve_hit engine (resolve engine c fp).2.1 fp
      (resolve engine c fp).1 hself
    refine ⟨by rw [hsecond], by rw [hsecond], ?_⟩
    intro hnone
    simp [resolve, hnone]
  · intro engine fps
    have hcov : ∀ fp ∈ fps,
        ∃ v, ((scanResolve engine [] fps).1).lookup fp = some v := by
      intro fp hmem
      rw [scanResolve]
      exact scanResolveAux_covers engine fps ([], 0) fp hmem
    rw [scanResolve, scanResolveAux_no_calls engine fps _ 0 hcov]

/-- C7 witness: a fresh cache and a one-entry gallery; the first resolve
calls the engine, the second returns the same embedding for free, and a
second full scan makes zero engine calls. -/
theorem cache_resolve_memoizes_witness :
    ((resolve (fun _ => [1]) (resolve (fun _ => [1]) [] 0).2.1 0).1 =
      (resolve (fun _ => [1]) [] 0).1 ∧
    (resolve (fun _ => [1]) (resolve (fun _ => [1]) [] 0).2.1 0).2.2 = 0 ∧
    (resolve (fun _ => [1]) [] 0).2.2 = 1) ∧
    (scanResolve (fun _ => [1])
      (scanResolve (fun _ => [1]) [] [0]).1 [0]).2 = 0 := by
  have h := cache_resolve_memoizes.1 (fun _ => [1]) [] 0
  exact ⟨⟨h.1, h.2.1, h.2.2 rfl⟩, cache_resolve_memoizes.2 (fun _ => [1]) [0]⟩

end StudentAuth
